import Mathlib

/-!
Shallow embedding of the attendance-tracker backend (`src/main.py`,
`src/schemas.py`): the attendance day-view (backfill + suggestions),
the mark (normalize + upsert) operation and the period statistics.

Modelling conventions:
* Mongo collections are lists of documents; `find_one` is `List.find?`
  (first match in insertion order), `update_one` with `$set` of every
  field replaces the first matching document, insertion appends.
* Calendar dates are proleptic-Gregorian ordinals (`ℕ`), exactly
  Python's `date.toordinal`; `today` for the stats window is carried as
  a year/month/day triple `Ymd` so that `today.replace(day=1)` and
  `today.weekday()` can be expressed.
* Python `float` arithmetic is modelled by exact rationals `ℚ`;
  `round(x, 2)` is modelled as rounding `x * 100` to the nearest
  integer.
* Python `int` is `ℤ` (the `AttendanceMark` payload puts no lower
  bound on `sessions_held` / `attended_count`).
-/

namespace Attendance

/-- Attendance status literals (`AttendananceMark.status` / `AttendanceRecord.status`). -/
inductive Status where
  | attended
  | not_attended
  | teacher_leave
  | holiday
  | mixed
deriving DecidableEq, Repr

/-- Calendar event type literals (`AcademicEventIn.type`). -/
inductive EventType where
  | holiday
  | event
  | semester_start
  | semester_end
deriving DecidableEq, Repr

/-- A `student` document, restricted to the fields the attendance core reads:
its id, the enrolled subject codes, and the optional `min_threshold`
(missing field modelled as `none`, read with default `0.67`). -/
structure Student where
  sid : String
  subjects : List String
  min_threshold : Option ℚ
deriving DecidableEq, Repr

/-- An `academiccalendar` document. -/
structure CalEntry where
  title : String
  date : ℕ
  type : EventType
deriving DecidableEq, Repr

/-- A `teacherleave` document. -/
structure TeacherLeave where
  subject_code : String
  date : ℕ
  reason : Option String
deriving DecidableEq, Repr

/-- An `attendancerecord` document. -/
structure AttendanceRecord where
  student_id : String
  subject_code : String
  date : ℕ
  sessions_held : ℤ
  attended_count : ℤ
  status : Status
deriving DecidableEq, Repr

/-- The database state: the four collections the attendance core touches. -/
structure DB where
  students : List Student
  academiccalendar : List CalEntry
  teacherleave : List TeacherLeave
  attendancerecord : List AttendanceRecord
deriving DecidableEq, Repr

/-- Lookup `db.student.find_one({"_id": student_id})`. -/
def find_student (db : DB) (student_id : String) : Option Student :=
  db.students.find? (fun s => decide (s.sid = student_id))

/-- The database with every student's enrolled subject list replaced by `g`;
used to state that the statistics never read enrollment. -/
def mapSubjects (g : Student → List String) (db : DB) : DB :=
  { db with students := db.students.map (fun s => { s with subjects := g s }) }

/-- Predicate `is_holiday` (main.py line 265): an `academiccalendar` entry with this
date and type `holiday` exists. -/
def is_holiday (db : DB) (d : ℕ) : Bool :=
  (db.academiccalendar.find? (fun e => decide (e.date = d ∧ e.type = EventType.holiday))).isSome

/-- Predicate `is_teacher_leave` (main.py line 268): a `teacherleave` entry for this
exact (subject_code, date) pair exists. -/
def is_teacher_leave (db : DB) (subject_code : String) (d : ℕ) : Bool :=
  (db.teacherleave.find? (fun t => decide (t.subject_code = subject_code ∧ t.date = d))).isSome

/-- The query `{"student_id": .., "subject_code": .., "date": ..}` as a predicate. -/
def matchesKey (student_id subject_code : String) (d : ℕ) (r : AttendanceRecord) : Bool :=
  decide (r.student_id = student_id ∧ r.subject_code = subject_code ∧ r.date = d)

/-- The record the backfill loop creates (main.py line 283):
`sessions_held=0, attended_count=0, status=holiday`. -/
def backfillRecord (student_id subject_code : String) (d : ℕ) : AttendanceRecord :=
  ⟨student_id, subject_code, d, 0, 0, Status.holiday⟩

/-- One iteration of the backfill loop (main.py lines 279-283): skip subjects on
teacher leave, create the holiday record only when no record exists for the key. -/
def backfillOne (db : DB) (student_id : String) (d : ℕ)
    (recs : List AttendanceRecord) (code : String) : List AttendanceRecord :=
  if is_teacher_leave db code d then recs
  else if (recs.find? (matchesKey student_id code d)).isSome then recs
  else recs ++ [backfillRecord student_id code d]

/-- The whole backfill loop over the student's subject list. -/
def backfill (db : DB) (student_id : String) (d : ℕ) (subs : List String)
    (recs : List AttendanceRecord) : List AttendanceRecord :=
  subs.foldl (backfillOne db student_id d) recs

/-- Suggestion for one subject (main.py lines 288-292): `holiday` when the date
is a holiday, else `teacher_leave` when the subject is on leave, else none. -/
def suggestionFor (db : DB) (d : ℕ) (code : String) : Option String :=
  if is_holiday db d then some "holiday"
  else if is_teacher_leave db code d then some "teacher_leave"
  else none

/-- The suggestions mapping, keyed by subject code in subject-list order. -/
def suggestionsFor (db : DB) (d : ℕ) (subs : List String) : List (String × String) :=
  subs.filterMap (fun code => (suggestionFor db d code).map (fun v => (code, v)))

/-- The response of `GET /attendance/day`. -/
structure DayView where
  records : List AttendanceRecord
  suggestions : List (String × String)
deriving DecidableEq, Repr

/-- Endpoint `attendance_day` (main.py lines 271-296) with `today` injected: backfill past
non-holiday days, then return the day's records and the suggestions. Returns
the updated database together with the response. -/
def attendance_day (db : DB) (today : ℕ) (student_id : String) (d : ℕ) :
    DB × DayView :=
  let subs := ((find_student db student_id).map Student.subjects).getD []
  let recs :=
    if d < today ∧ is_holiday db d = false then
      backfill db student_id d subs db.attendancerecord
    else
      db.attendancerecord
  let dayRecords := recs.filter (fun r => decide (r.student_id = student_id ∧ r.date = d))
  ({ db with attendancerecord := recs },
   { records := dayRecords, suggestions := suggestionsFor db d subs })

/-- The `POST /attendance/mark` payload (pydantic `AttendanceMark`). -/
structure AttendanceMark where
  student_id : String
  subject_code : String
  date : ℕ
  sessions_held : ℤ
  attended_count : ℤ
  status : Status
deriving DecidableEq, Repr

/-- Normalization step of `attendance_mark` (main.py lines 302-308): holiday
forces `status=holiday`, `sessions_held=max(..,1)`, `attended_count=0`; else
teacher leave forces `status=teacher_leave`, `attended_count=0`. -/
def normalizeMark (db : DB) (p : AttendanceMark) : AttendanceMark :=
  if is_holiday db p.date then
    { p with status := Status.holiday,
             sessions_held := max p.sessions_held 1,
             attended_count := 0 }
  else if is_teacher_leave db p.subject_code p.date then
    { p with status := Status.teacher_leave, attended_count := 0 }
  else p

/-- The document body `payload.model_dump()` written by the upsert. -/
def recordOfMark (p : AttendanceMark) : AttendanceRecord :=
  ⟨p.student_id, p.subject_code, p.date, p.sessions_held, p.attended_count, p.status⟩

/-- Update `update_one` with `$set` of every field: replace the first matching document. -/
def replaceFirst (p : AttendanceRecord → Bool) (b : AttendanceRecord) :
    List AttendanceRecord → List AttendanceRecord
  | [] => []
  | x :: xs => if p x then b :: xs else x :: replaceFirst p b xs

/-- Endpoint `attendance_mark` (main.py lines 298-317): normalize, then upsert keyed by
(student_id, subject_code, date). -/
def attendance_mark (db : DB) (p0 : AttendanceMark) : DB :=
  let p := normalizeMark db p0
  let q := matchesKey p.student_id p.subject_code p.date
  let body := recordOfMark p
  let recs :=
    if (db.attendancerecord.find? q).isSome then replaceFirst q body db.attendancerecord
    else db.attendancerecord ++ [body]
  { db with attendancerecord := recs }

/-- A calendar date as year/month/day, Python's `datetime.date`. -/
structure Ymd where
  year : ℕ
  month : ℕ
  day : ℕ
deriving DecidableEq, Repr

/-- Gregorian leap year test. -/
def isLeap (y : ℕ) : Bool :=
  decide (y % 4 = 0 ∧ (y % 100 ≠ 0 ∨ y % 400 = 0))

/-- Number of days in month `m` of year `y` (months are 1-based). -/
def daysInMonth (y m : ℕ) : ℕ :=
  if m = 2 then (if isLeap y then 29 else 28)
  else if m = 4 ∨ m = 6 ∨ m = 9 ∨ m = 11 then 30
  else 31

/-- Days in year `y` strictly before month `m`. -/
def daysBeforeMonth (y : ℕ) : ℕ → ℕ
  | 0 => 0
  | 1 => 0
  | m + 1 => daysBeforeMonth y m + daysInMonth y m

/-- Days strictly before year `y` in the proleptic Gregorian calendar. -/
def daysBeforeYear (y : ℕ) : ℕ :=
  365 * (y - 1) + (y - 1) / 4 - (y - 1) / 100 + (y - 1) / 400

/-- Python's `date.toordinal`: day 1 is 0001-01-01. -/
def toOrdinal (t : Ymd) : ℕ :=
  daysBeforeYear t.year + daysBeforeMonth t.year t.month + t.day

/-- Python's `date.weekday()`: Monday is 0, Sunday is 6. -/
def weekday (t : Ymd) : ℕ :=
  (toOrdinal t - 1) % 7

/-- The stats period literal. -/
inductive Period where
  | weekly
  | monthly
  | semester
deriving DecidableEq, Repr

/-- Accumulator step keeping the entry with the larger date (first on ties). -/
def semMax (acc : Option CalEntry) (e : CalEntry) : Option CalEntry :=
  match acc with
  | none => some e
  | some b => if b.date < e.date then some e else some b

/-- Query `find_one({"type": "semester_start"}, sort=[("date", -1)])`: the
semester_start entry with the maximum date (first such entry on ties). -/
def findSemStart (cal : List CalEntry) : Option CalEntry :=
  (cal.filter (fun e => decide (e.type = EventType.semester_start))).foldl semMax none

/-- Window start resolution of `attendance_stats` (main.py lines 323-330), as an
ordinal: weekly is today minus `today.weekday()` days, monthly is the first of
the current month, semester is the latest semester_start entry's date with the
monthly start as fallback. -/
def resolveStart (cal : List CalEntry) (today : Ymd) : Period → ℕ
  | Period.weekly => toOrdinal today - weekday today
  | Period.monthly => toOrdinal { today with day := 1 }
  | Period.semester =>
      match findSemStart cal with
      | some e => e.date
      | none => toOrdinal { today with day := 1 }

/-- The records fetched by the stats query
`{"student_id": .., "date": {"$gte": start, "$lte": today}}`. -/
def fetchedRecs (db : DB) (today : Ymd) (student_id : String) (period : Period) :
    List AttendanceRecord :=
  let start := resolveStart db.academiccalendar today period
  db.attendancerecord.filter
    (fun r => decide (r.student_id = student_id ∧ start ≤ r.date ∧ r.date ≤ toOrdinal today))

/-- Records with status holiday or teacher_leave are excluded from totals. -/
def statusExcluded (st : Status) : Bool :=
  decide (st = Status.holiday ∨ st = Status.teacher_leave)

/-- Running totals of the aggregation loop: overall and per-subject sums plus
the first-seen order of subject codes (the `per_subject` dict). -/
structure Totals where
  attended : ℤ
  held : ℤ
  subjAttended : String → ℤ
  subjHeld : String → ℤ
  subjKeys : List String

/-- The empty totals. -/
def Totals.init : Totals :=
  ⟨0, 0, fun _ => 0, fun _ => 0, []⟩

/-- One iteration of the aggregation loop (main.py lines 337-350). -/
def aggStep (t : Totals) (r : AttendanceRecord) : Totals :=
  if statusExcluded r.status then t
  else
    { attended := t.attended + r.attended_count,
      held := t.held + r.sessions_held,
      subjAttended := fun c =>
        if c = r.subject_code then t.subjAttended c + r.attended_count else t.subjAttended c,
      subjHeld := fun c =>
        if c = r.subject_code then t.subjHeld c + r.sessions_held else t.subjHeld c,
      subjKeys :=
        if r.subject_code ∈ t.subjKeys then t.subjKeys else t.subjKeys ++ [r.subject_code] }

/-- Totals over a record list. -/
def aggregate (recs : List AttendanceRecord) : Totals :=
  recs.foldl aggStep Totals.init

/-- Python's `round(x, 2)` on the exact-rational model of a float. -/
def round2 (x : ℚ) : ℚ :=
  ((round (x * 100) : ℤ) : ℚ) / 100

/-- Value `attended / held * 100 if held > 0 else 0.0`, unrounded (used for `alert`). -/
def rawPct (attended held : ℤ) : ℚ :=
  if 0 < held then (attended : ℚ) / (held : ℚ) * 100 else 0

/-- A per-subject entry of the stats response. -/
structure SubjectStat where
  subject_code : String
  attended : ℤ
  held : ℤ
  percentage : ℚ
deriving DecidableEq, Repr

/-- The response of `GET /attendance/stats`. -/
structure StatsResult where
  window_from : ℕ
  window_to : ℕ
  attended : ℤ
  held : ℤ
  percentage : ℚ
  threshold : ℚ
  alert : Bool
  subjects : List SubjectStat
deriving DecidableEq, Repr

/-- Endpoint `attendance_stats` (main.py lines 319-369) with `today` injected: resolve
the window, aggregate the fetched records, compute percentages, the threshold
(default 0.67 fraction when missing, 67.0 when the student is not found), and
the alert flag `overall_pct < threshold` on the unrounded percentage. -/
def attendance_stats (db : DB) (today : Ymd) (student_id : String) (period : Period) :
    StatsResult :=
  let start := resolveStart db.academiccalendar today period
  let t := aggregate (fetchedRecs db today student_id period)
  let subjectStats := t.subjKeys.map (fun c =>
    { subject_code := c,
      attended := t.subjAttended c,
      held := t.subjHeld c,
      percentage := round2 (rawPct (t.subjAttended c) (t.subjHeld c)) : SubjectStat })
  let overallPct := rawPct t.attended t.held
  let threshold : ℚ :=
    match find_student db student_id with
    | some s => s.min_threshold.getD (67 / 100) * 100
    | none => 67
  { window_from := start,
    window_to := toOrdinal today,
    attended := t.attended,
    held := t.held,
    percentage := round2 overallPct,
    threshold := threshold,
    alert := decide (overallPct < threshold),
    subjects := subjectStats }

/-! ### Helper lemmas about the upsert -/

lemma normalizeMark_student_id (db : DB) (p : AttendanceMark) :
    (normalizeMark db p).student_id = p.student_id := by
  unfold normalizeMark; split
  · rfl
  · split <;> rfl

lemma normalizeMark_subject_code (db : DB) (p : AttendanceMark) :
    (normalizeMark db p).subject_code = p.subject_code := by
  unfold normalizeMark; split
  · rfl
  · split <;> rfl

lemma normalizeMark_date (db : DB) (p : AttendanceMark) :
    (normalizeMark db p).date = p.date := by
  unfold normalizeMark; split
  · rfl
  · split <;> rfl

lemma matchesKey_recordOfMark (p : AttendanceMark) :
    matchesKey p.student_id p.subject_code p.date (recordOfMark p) = true := by
  simp [matchesKey, recordOfMark]

lemma find?_replaceFirst (p : AttendanceRecord → Bool) (b : AttendanceRecord)
    (hb : p b = true) :
    ∀ l : List AttendanceRecord, (l.find? p).isSome →
      (replaceFirst p b l).find? p = some b := by
  intro l
  induction l with
  | nil => intro h; simp [List.find?] at h
  | cons x xs ih =>
    intro h
    by_cases hx : p x = true
    · simp [replaceFirst, hx, List.find?, hb]
    · have hx' : p x = false := by
        cases hpx : p x
        · rfl
        · exact absurd hpx hx
      simp only [List.find?, hx'] at h
      simp [replaceFirst, hx', List.find?, ih h]

lemma countP_replaceFirst (p : AttendanceRecord → Bool) (b : AttendanceRecord)
    (hb : p b = true) :
    ∀ l : List AttendanceRecord, (replaceFirst p b l).countP p = l.countP p := by
  intro l
  induction l with
  | nil => rfl
  | cons x xs ih =>
    by_cases hx : p x = true
    · simp [replaceFirst, hx, List.countP_cons, hb]
    · have hx' : p x = false := by
        cases hpx : p x
        · rfl
        · exact absurd hpx hx
      simp [replaceFirst, hx', List.countP_cons, ih]

lemma find?_append_of_none (p : AttendanceRecord → Bool) (l₁ l₂ : List AttendanceRecord)
    (h : l₁.find? p = none) : (l₁ ++ l₂).find? p = l₂.find? p := by
  induction l₁ with
  | nil => rfl
  | cons x xs ih =>
    by_cases hx : p x = true
    · simp [List.find?, hx] at h
    · have hx' : p x = false := by
        cases hpx : p x
        · rfl
        · exact absurd hpx hx
      simp only [List.find?, hx'] at h
      simpa [List.find?, hx'] using ih h

lemma attendance_mark_find? (db : DB) (p0 : AttendanceMark) :
    ((attendance_mark db p0).attendancerecord.find?
        (matchesKey p0.student_id p0.subject_code p0.date)) =
      some (recordOfMark (normalizeMark db p0)) := by
  have hkey : matchesKey (normalizeMark db p0).student_id (normalizeMark db p0).subject_code
      (normalizeMark db p0).date = matchesKey p0.student_id p0.subject_code p0.date := by
    rw [normalizeMark_student_id, normalizeMark_subject_code, normalizeMark_date]
  have hb : matchesKey p0.student_id p0.subject_code p0.date
      (recordOfMark (normalizeMark db p0)) = true := by
    rw [← hkey]; exact matchesKey_recordOfMark (normalizeMark db p0)
  simp only [attendance_mark]
  rw [hkey]
  by_cases hs : (db.attendancerecord.find? (matchesKey p0.student_id p0.subject_code p0.date)).isSome
  · simp only [hs, if_true]
    exact find?_replaceFirst _ _ hb db.attendancerecord hs
  · have hn : db.attendancerecord.find? (matchesKey p0.student_id p0.subject_code p0.date) = none := by
      cases hfind : db.attendancerecord.find? (matchesKey p0.student_id p0.subject_code p0.date)
      · rfl
      · exact absurd (by simp [hfind]) hs
    simp only [hs, if_false, Bool.false_eq_true]
    rw [find?_append_of_none _ _ _ hn]
    simp [List.find?, hb]

lemma attendance_mark_countP (db : DB) (p0 : AttendanceMark)
    (h : db.attendancerecord.countP (matchesKey p0.student_id p0.subject_code p0.date) ≤ 1) :
    (attendance_mark db p0).attendancerecord.countP
      (matchesKey p0.student_id p0.subject_code p0.date) = 1 := by
  have hkey : matchesKey (normalizeMark db p0).student_id (normalizeMark db p0).subject_code
      (normalizeMark db p0).date = matchesKey p0.student_id p0.subject_code p0.date := by
    rw [normalizeMark_student_id, normalizeMark_subject_code, normalizeMark_date]
  have hb : matchesKey p0.student_id p0.subject_code p0.date
      (recordOfMark (normalizeMark db p0)) = true := by
    rw [← hkey]; exact matchesKey_recordOfMark (normalizeMark db p0)
  simp only [attendance_mark]
  rw [hkey]
  by_cases hs : (db.attendancerecord.find? (matchesKey p0.student_id p0.subject_code p0.date)).isSome
  · simp only [hs, if_true]
    rw [countP_replaceFirst _ _ hb]
    have hpos : 0 < db.attendancerecord.countP (matchesKey p0.student_id p0.subject_code p0.date) := by
      rw [List.countP_pos_iff]
      obtain ⟨r, hr⟩ := Option.isSome_iff_exists.mp hs
      exact ⟨r, List.mem_of_find?_eq_some hr, List.find?_some hr⟩
    omega
  · have hn : db.attendancerecord.find? (matchesKey p0.student_id p0.subject_code p0.date) = none := by
      cases hfind : db.attendancerecord.find? (matchesKey p0.student_id p0.subject_code p0.date)
      · rfl
      · exact absurd (by simp [hfind]) hs
    have hz : db.attendancerecord.countP (matchesKey p0.student_id p0.subject_code p0.date) = 0 := by
      rw [List.countP_eq_zero]
      intro a ha
      exact (List.find?_eq_none.mp hn) a ha
    simp only [hs, if_false, Bool.false_eq_true]
    rw [List.countP_append, hz, List.countP_cons]
    simp [hb]

/-! ### Helper lemmas about the backfill loop -/

lemma mem_backfillOne_of_mem (db : DB) (student_id : String) (d : ℕ)
    (recs : List AttendanceRecord) (code : String) {x : AttendanceRecord}
    (hx : x ∈ recs) : x ∈ backfillOne db student_id d recs code := by
  unfold backfillOne
  split
  · exact hx
  · split
    · exact hx
    · exact List.mem_append_left _ hx

lemma mem_backfill_of_mem (db : DB) (student_id : String) (d : ℕ) :
    ∀ (subs : List String) (recs : List AttendanceRecord) (x : AttendanceRecord),
      x ∈ recs → x ∈ backfill db student_id d subs recs := by
  intro subs
  induction subs with
  | nil => intro recs x hx; exact hx
  | cons c cs ih =>
    intro recs x hx
    exact ih _ x (mem_backfillOne_of_mem db student_id d recs c hx)

lemma backfill_mem_cases (db : DB) (student_id : String) (d : ℕ) :
    ∀ (subs : List String) (recs : List AttendanceRecord) (x : AttendanceRecord),
      x ∈ backfill db student_id d subs recs →
      x ∈ recs ∨ ∃ c ∈ subs, x = backfillRecord student_id c d := by
  intro subs
  induction subs with
  | nil => intro recs x hx; exact Or.inl hx
  | cons c cs ih =>
    intro recs x hx
    rcases ih _ x hx with h | ⟨c', hc', he⟩
    · unfold backfillOne at h
      split at h
      · exact Or.inl h
      · split at h
        · exact Or.inl h
        · rcases List.mem_append.mp h with h' | h'
          · exact Or.inl h'
          · refine Or.inr ⟨c, List.mem_cons_self _ _, ?_⟩
            simpa using h'
    · exact Or.inr ⟨c', List.mem_cons_of_mem _ hc', he⟩

lemma countP_backfillOne_other (db : DB) (student_id : String) (d : ℕ)
    (recs : List AttendanceRecord) (code : String)
    (sid c : String) (hcc : c ≠ code) :
    (backfillOne db student_id d recs code).countP (matchesKey sid c d) =
      recs.countP (matchesKey sid c d) := by
  unfold backfillOne
  split
  · rfl
  · split
    · rfl
    · rw [List.countP_append, List.countP_cons]
      have : matchesKey sid c d (backfillRecord student_id code d) = false := by
        simp [matchesKey, backfillRecord]
        intro _ h
        exact absurd h.symm hcc
      simp [this]

lemma countP_backfill (db : DB) (student_id : String) (d : ℕ) (c : String)
    (hl : is_teacher_leave db c d = false) :
    ∀ (subs : List String) (recs : List AttendanceRecord),
      (backfill db student_id d subs recs).countP (matchesKey student_id c d) =
        if c ∈ subs ∧ recs.countP (matchesKey student_id c d) = 0 then 1
        else recs.countP (matchesKey student_id c d) := by
  intro subs
  induction subs with
  | nil => intro recs; simp [backfill]
  | cons c0 cs ih =>
    intro recs
    show (backfill db student_id d cs (backfillOne db student_id d recs c0)).countP _ = _
    by_cases hc : c = c0
    · subst hc
      unfold backfillOne
      rw [if_neg (by simp [hl])]
      by_cases hs : (recs.find? (matchesKey student_id c d)).isSome
      · rw [if_pos hs, ih recs]
        have hpos : 0 < recs.countP (matchesKey student_id c d) := by
          rw [List.countP_pos_iff]
          obtain ⟨r, hr⟩ := Option.isSome_iff_exists.mp hs
          exact ⟨r, List.mem_of_find?_eq_some hr, List.find?_some hr⟩
        have hne : recs.countP (matchesKey student_id c d) ≠ 0 := by omega
        simp [hne]
      · have hn : recs.find? (matchesKey student_id c d) = none := by
          cases hfind : recs.find? (matchesKey student_id c d)
          · rfl
          · exact absurd (by simp [hfind]) hs
        have hz : recs.countP (matchesKey student_id c d) = 0 := by
          rw [List.countP_eq_zero]
          intro a ha
          exact (List.find?_eq_none.mp hn) a ha
        rw [if_neg (by simp [hs]), ih _]
        have hb : matchesKey student_id c d (backfillRecord student_id c d) = true := by
          simp [matchesKey, backfillRecord]
        have h1 : (recs ++ [backfillRecord student_id c d]).countP (matchesKey student_id c d) = 1 := by
          rw [List.countP_append, hz, List.countP_cons]
          simp [hb]
        rw [h1]
        simp [hz]
    · rw [ih _, countP_backfillOne_other db student_id d recs c0 student_id c hc]
      have : (c ∈ c0 :: cs) ↔ (c ∈ cs) := by
        simp [List.mem_cons, hc]
      simp only [this]

lemma backfill_exists_match (db : DB) (student_id : String) (d : ℕ) :
    ∀ (subs : List String) (recs : List AttendanceRecord) (c : String),
      c ∈ subs → is_teacher_leave db c d = false →
      ∃ x ∈ backfill db student_id d subs recs, matchesKey student_id c d x = true := by
  intro subs
  induction subs with
  | nil => intro recs c hc; exact absurd hc (List.not_mem_nil c)
  | cons c0 cs ih =>
    intro recs c hc hl
    rcases List.mem_cons.mp hc with rfl | hc'
    · show ∃ x ∈ backfill db student_id d cs (backfillOne db student_id d recs c), _
      unfold backfillOne
      rw [if_neg (by simp [hl])]
      by_cases hs : (recs.find? (matchesKey student_id c d)).isSome
      · rw [if_pos hs]
        obtain ⟨r, hr⟩ := Option.isSome_iff_exists.mp hs
        exact ⟨r, mem_backfill_of_mem db student_id d cs recs r (List.mem_of_find?_eq_some hr),
          List.find?_some hr⟩
      · rw [if_neg (by simp [hs])]
        refine ⟨backfillRecord student_id c d, ?_, by simp [matchesKey, backfillRecord]⟩
        exact mem_backfill_of_mem db student_id d cs _ _ (by simp)
    · exact ih _ c hc' hl

lemma backfill_eq_of_settled (db : DB) (student_id : String) (d : ℕ) :
    ∀ (subs : List String) (recs : List AttendanceRecord),
      (∀ c ∈ subs, is_teacher_leave db c d = true ∨
        (recs.find? (matchesKey student_id c d)).isSome) →
      backfill db student_id d subs recs = recs := by
  intro subs
  induction subs with
  | nil => intro recs _; rfl
  | cons c0 cs ih =>
    intro recs h
    have h0 : backfillOne db student_id d recs c0 = recs := by
      unfold backfillOne
      by_cases hl : is_teacher_leave db c0 d = true
      · rw [if_pos hl]
      · rcases h c0 (List.mem_cons_self _ _) with hl' | hs
        · exact absurd hl' hl
        · rw [if_neg hl, if_pos hs]
    show backfill db student_id d cs (backfillOne db student_id d recs c0) = recs
    rw [h0]
    exact ih recs (fun c hc => h c (List.mem_cons_of_mem _ hc))

lemma find?_eq_of_countP_one (p : AttendanceRecord → Bool) :
    ∀ (l : List AttendanceRecord) (a : AttendanceRecord),
      l.countP p = 1 → a ∈ l → p a = true → l.find? p = some a := by
  intro l
  induction l with
  | nil => intro a h; simp at h
  | cons x xs ih =>
    intro a h ha hpa
    by_cases hx : p x = true
    · have hxs : xs.countP p = 0 := by
        rw [List.countP_cons, if_pos hx] at h
        omega
      have hax : a = x := by
        rcases List.mem_cons.mp ha with rfl | ha'
        · rfl
        · exfalso
          have : 0 < xs.countP p := List.countP_pos_iff.mpr ⟨a, ha', hpa⟩
          omega
      subst hax
      simp [List.find?, hx]
    · have hx' : p x = false := by
        cases hpx : p x
        · rfl
        · exact absurd hpx hx
      have ha' : a ∈ xs := by
        rcases List.mem_cons.mp ha with rfl | ha'
        · exact absurd hpa hx
        · exact ha'
      have h' : xs.countP p = 1 := by
        rw [List.countP_cons, if_neg (by simp [hx'])] at h
        omega
      simp [List.find?, hx', ih a h' ha' hpa]

/-! ### Frame facts: `attendance_mark` and `attendance_day` touch only records -/

lemma attendance_mark_frame (db : DB) (p : AttendanceMark) :
    (attendance_mark db p).students = db.students ∧
    (attendance_mark db p).academiccalendar = db.academiccalendar ∧
    (attendance_mark db p).teacherleave = db.teacherleave :=
  ⟨rfl, rfl, rfl⟩

lemma normalizeMark_after_mark (db : DB) (q p : AttendanceMark) :
    normalizeMark (attendance_mark db q) p = normalizeMark db p := rfl

/-- C2 and C3 share this step: after one `attendance_mark`, the record found at
the payload's key is exactly the normalized body, and the key stays unique. -/
lemma mark_fold_aux (sid code : String) (d : ℕ) :
    ∀ (ps : List AttendanceMark) (db : DB) (p : AttendanceMark),
      (∀ q ∈ ps ++ [p], q.student_id = sid ∧ q.subject_code = code ∧ q.date = d) →
      db.attendancerecord.countP (matchesKey sid code d) ≤ 1 →
      (((ps ++ [p]).foldl attendance_mark db).attendancerecord.countP
          (matchesKey sid code d) = 1 ∧
        ((ps ++ [p]).foldl attendance_mark db).attendancerecord.find?
          (matchesKey sid code d) = some (recordOfMark (normalizeMark db p))) := by
  intro ps
  induction ps with
  | nil =>
    intro db p hkeys h0
    obtain ⟨hps, hpc, hpd⟩ := hkeys p (by simp)
    have hkey : matchesKey sid code d = matchesKey p.student_id p.subject_code p.date := by
      rw [hps, hpc, hpd]
    simp only [List.nil_append, List.foldl_cons, List.foldl_nil]
    constructor
    · rw [hkey]
      exact attendance_mark_countP db p (by rw [← hkey]; exact h0)
    · rw [hkey]
      exact attendance_mark_find? db p
  | cons q ps' ih =>
    intro db p hkeys h0
    obtain ⟨hqs, hqc, hqd⟩ := hkeys q (by simp)
    have hkey : matchesKey sid code d = matchesKey q.student_id q.subject_code q.date := by
      rw [hqs, hqc, hqd]
    have h1 : (attendance_mark db q).attendancerecord.countP (matchesKey sid code d) = 1 := by
      rw [hkey]
      exact attendance_mark_countP db q (by rw [← hkey]; exact h0)
    have := ih (attendance_mark db q) p
      (fun r hr => hkeys r (by simpa using Or.inr (by simpa using hr)))
      (by omega)
    rw [normalizeMark_after_mark] at this
    simpa using this

/-- C2: for every mark call, normalization follows exactly this priority: on a
holiday the persisted record has status=holiday, sessions_held = max(caller
value, 1) and attended_count = 0; else on teacher leave it has
status=teacher_leave, attended_count = 0 and sessions_held as supplied; else
all caller-supplied values are persisted verbatim (no attended_count ≤
sessions_held validation). -/
theorem mark_normalization (db : DB) (p : AttendanceMark) :
    ((attendance_mark db p).attendancerecord.find?
        (matchesKey p.student_id p.subject_code p.date)) =
      some { student_id := p.student_id,
             subject_code := p.subject_code,
             date := p.date,
             sessions_held :=
               if is_holiday db p.date = true then max p.sessions_held 1 else p.sessions_held,
             attended_count :=
               if is_holiday db p.date = true ∨ is_teacher_leave db p.subject_code p.date = true
               then 0 else p.attended_count,
             status :=
               if is_holiday db p.date = true then Status.holiday
               else if is_teacher_leave db p.subject_code p.date = true then Status.teacher_leave
               else p.status } := by
  rw [attendance_mark_find?]
  unfold normalizeMark recordOfMark
  by_cases hh : is_holiday db p.date = true
  · simp [hh]
  · by_cases hl : is_teacher_leave db p.subject_code p.date = true
    · simp [hh, hl]
    · simp [hh, hl]

/-- C3: for a fixed (student_id, subject_code, date), any sequence of mark
calls for that key, starting from a store obeying the at-most-one-record
invariant, leaves exactly one record for the key and all of its fields equal
the normalized values of the most recent call. -/
theorem mark_upsert_unique (db : DB) (sid code : String) (d : ℕ)
    (ps : List AttendanceMark) (p : AttendanceMark)
    (hkeys : ∀ q ∈ ps ++ [p], q.student_id = sid ∧ q.subject_code = code ∧ q.date = d)
    (h0 : db.attendancerecord.countP (matchesKey sid code d) ≤ 1) :
    ((ps ++ [p]).foldl attendance_mark db).attendancerecord.countP
        (matchesKey sid code d) = 1 ∧
    ((ps ++ [p]).foldl attendance_mark db).attendancerecord.find?
        (matchesKey sid code d) = some (recordOfMark (normalizeMark db p)) :=
  mark_fold_aux sid code d ps db p hkeys h0

/-- Witness for C3: two marks of the same key on an empty store leave exactly
the second call's normalized record. -/
theorem mark_upsert_unique_witness :
    ((∀ q ∈ [AttendanceMark.mk "s1" "CS101" 7 2 1 Status.mixed] ++
        [AttendanceMark.mk "s1" "CS101" 7 3 3 Status.attended],
        q.student_id = "s1" ∧ q.subject_code = "CS101" ∧ q.date = 7) ∧
      (DB.mk [] [] [] []).attendancerecord.countP (matchesKey "s1" "CS101" 7) ≤ 1) ∧
    ((([AttendanceMark.mk "s1" "CS101" 7 2 1 Status.mixed] ++
        [AttendanceMark.mk "s1" "CS101" 7 3 3 Status.attended]).foldl attendance_mark
          (DB.mk [] [] [] [])).attendancerecord.countP (matchesKey "s1" "CS101" 7) = 1 ∧
      (([AttendanceMark.mk "s1" "CS101" 7 2 1 Status.mixed] ++
        [AttendanceMark.mk "s1" "CS101" 7 3 3 Status.attended]).foldl attendance_mark
          (DB.mk [] [] [] [])).attendancerecord.find? (matchesKey "s1" "CS101" 7) =
        some (recordOfMark (normalizeMark (DB.mk [] [] [] [])
          (AttendanceMark.mk "s1" "CS101" 7 3 3 Status.attended)))) :=
  ⟨⟨by decide, by decide⟩,
    mark_upsert_unique (DB.mk [] [] [] []) "s1" "CS101" 7
      [AttendanceMark.mk "s1" "CS101" 7 2 1 Status.mixed]
      (AttendanceMark.mk "s1" "CS101" 7 3 3 Status.attended)
      (by decide) (by decide)⟩

/-- C10: `attendance_day` performs no writes at all when the requested date is
today or later, or the date is a holiday, or the student is not found. -/
theorem day_no_writes (db : DB) (today : ℕ) (sid : String) (d : ℕ)
    (h : today ≤ d ∨ is_holiday db d = true ∨ find_student db sid = none) :
    (attendance_day db today sid d).1 = db := by
  simp only [attendance_day]
  rcases h with h | h | h
  · rw [if_neg (fun hc => absurd hc.1 (by omega))]
  · rw [if_neg (fun hc => by rw [h] at hc; exact absurd hc.2 (by simp))]
  · have hsubs : ((find_student db sid).map Student.subjects).getD [] = [] := by
      rw [h]; rfl
    rw [hsubs]
    split
    · rfl
    · rfl

/-- Witness for C10: a day-view call for a future date leaves the database
unchanged. -/
theorem day_no_writes_witness :
    ((100 : ℕ) ≤ 200 ∨ is_holiday (DB.mk [⟨"s1", ["CS101"], none⟩] [] [] []) 200 = true ∨
      find_student (DB.mk [⟨"s1", ["CS101"], none⟩] [] [] []) "s1" = none) ∧
    (attendance_day (DB.mk [⟨"s1", ["CS101"], none⟩] [] [] []) 100 "s1" 200).1 =
      DB.mk [⟨"s1", ["CS101"], none⟩] [] [] [] :=
  ⟨Or.inl (by decide),
    day_no_writes (DB.mk [⟨"s1", ["CS101"], none⟩] [] [] []) 100 "s1" 200 (Or.inl (by decide))⟩

lemma DB_fields_ext (a b : DB) (h1 : a.students = b.students)
    (h2 : a.academiccalendar = b.academiccalendar) (h3 : a.teacherleave = b.teacherleave)
    (h4 : a.attendancerecord = b.attendancerecord) : a = b := by
  cases a; cases b
  simp only at h1 h2 h3 h4
  rw [h1, h2, h3, h4]

lemma backfill_after_day (db : DB) (today : ℕ) (sid : String) (d : ℕ)
    (subs : List String) (recs : List AttendanceRecord) :
    backfill (attendance_day db today sid d).1 sid d subs recs =
      backfill db sid d subs recs := rfl

/-- The store produced by `attendance_day` under the backfill guard. -/
lemma attendance_day_store (db : DB) (today : ℕ) (sid : String) (d : ℕ) (s : Student)
    (hs : find_student db sid = some s) (hd : d < today) (hh : is_holiday db d = false) :
    (attendance_day db today sid d).1.attendancerecord =
      backfill db sid d s.subjects db.attendancerecord := by
  have hsubs : ((find_student db sid).map Student.subjects).getD [] = s.subjects := by
    rw [hs]; rfl
  simp only [attendance_day]
  rw [if_pos ⟨hd, hh⟩, hsubs]

/-- C1: a day-view call for a past, non-holiday date creates, for every
enrolled subject that is not on teacher leave and has no record for the key,
exactly one record with sessions_held=0, attended_count=0, status=holiday; a
second identical call leaves the database unchanged. -/
theorem day_backfill (db : DB) (today : ℕ) (sid : String) (d : ℕ) (s : Student) (c : String)
    (hs : find_student db sid = some s) (hc : c ∈ s.subjects)
    (hd : d < today) (hh : is_holiday db d = false)
    (hl : is_teacher_leave db c d = false)
    (h0 : db.attendancerecord.countP (matchesKey sid c d) = 0) :
    (attendance_day db today sid d).1.attendancerecord.countP (matchesKey sid c d) = 1 ∧
    (attendance_day db today sid d).1.attendancerecord.find? (matchesKey sid c d) =
      some (backfillRecord sid c d) ∧
    (attendance_day (attendance_day db today sid d).1 today sid d).1 =
      (attendance_day db today sid d).1 := by
  have hstore := attendance_day_store db today sid d s hs hd hh
  have hcount : (attendance_day db today sid d).1.attendancerecord.countP
      (matchesKey sid c d) = 1 := by
    rw [hstore, countP_backfill db sid d c hl s.subjects db.attendancerecord]
    simp [hc, h0]
  refine ⟨hcount, ?_, ?_⟩
  · -- the unique matching record is the backfill record
    obtain ⟨x, hxmem, hxmatch⟩ :=
      backfill_exists_match db sid d s.subjects db.attendancerecord c hc hl
    have hx : x = backfillRecord sid c d := by
      rcases backfill_mem_cases db sid d s.subjects db.attendancerecord x hxmem with hin | ⟨c', _, he⟩
      · exfalso
        exact (List.countP_eq_zero.mp h0) x hin hxmatch
      · subst he
        have : c' = c := by
          simpa [matchesKey, backfillRecord] using hxmatch
        rw [this]
    subst hx
    rw [hstore]
    exact find?_eq_of_countP_one _ _ _ (by rw [← hstore]; exact hcount) hxmem hxmatch
  · -- idempotence: the second call changes nothing
    set db₁ := (attendance_day db today sid d).1 with hdb₁
    have hs₁ : find_student db₁ sid = some s := hs
    have hh₁ : is_holiday db₁ d = false := hh
    have hstore₁ : (attendance_day db₁ today sid d).1.attendancerecord =
        backfill db₁ sid d s.subjects db₁.attendancerecord :=
      attendance_day_store db₁ today sid d s hs₁ hd hh₁
    have hsettle : ∀ c' ∈ s.subjects, is_teacher_leave db₁ c' d = true ∨
        (db₁.attendancerecord.find? (matchesKey sid c' d)).isSome := by
      intro c' hc'
      by_cases hl' : is_teacher_leave db c' d = true
      · exact Or.inl hl'
      · right
        have hl'' : is_teacher_leave db c' d = false := by
          cases hv : is_teacher_leave db c' d
          · rfl
          · exact absurd hv hl'
        obtain ⟨x, hxmem, hxmatch⟩ :=
          backfill_exists_match db sid d s.subjects db.attendancerecord c' hc' hl''
        rw [hdb₁, hstore]
        cases hfind : (backfill db sid d s.subjects db.attendancerecord).find?
            (matchesKey sid c' d) with
        | none => exact absurd hxmatch ((List.find?_eq_none.mp hfind) x hxmem)
        | some r => simp
    have hfix : backfill db₁ sid d s.subjects db₁.attendancerecord = db₁.attendancerecord :=
      backfill_eq_of_settled db₁ sid d s.subjects db₁.attendancerecord hsettle
    have hrec : (attendance_day db₁ today sid d).1.attendancerecord = db₁.attendancerecord := by
      rw [hstore₁, hfix]
    exact DB_fields_ext _ _ rfl rfl rfl hrec

/-- Witness for C1: on an empty store, the day view for a past non-holiday date
backfills exactly one holiday record for the enrolled subject and a second call
is a no-op. -/
theorem day_backfill_witness :
    (find_student (DB.mk [Student.mk "s1" ["CS101"] none] [] [] []) "s1" =
        some (Student.mk "s1" ["CS101"] none) ∧
      "CS101" ∈ (Student.mk "s1" ["CS101"] none).subjects ∧
      (97 : ℕ) < 100 ∧
      is_holiday (DB.mk [Student.mk "s1" ["CS101"] none] [] [] []) 97 = false ∧
      is_teacher_leave (DB.mk [Student.mk "s1" ["CS101"] none] [] [] []) "CS101" 97 = false ∧
      (DB.mk [Student.mk "s1" ["CS101"] none] [] [] []).attendancerecord.countP
        (matchesKey "s1" "CS101" 97) = 0) ∧
    ((attendance_day (DB.mk [Student.mk "s1" ["CS101"] none] [] [] []) 100 "s1"
        97).1.attendancerecord.countP (matchesKey "s1" "CS101" 97) = 1 ∧
      (attendance_day (DB.mk [Student.mk "s1" ["CS101"] none] [] [] []) 100 "s1"
        97).1.attendancerecord.find? (matchesKey "s1" "CS101" 97) =
          some (backfillRecord "s1" "CS101" 97) ∧
      (attendance_day (attendance_day (DB.mk [Student.mk "s1" ["CS101"] none] [] [] []) 100
          "s1" 97).1 100 "s1" 97).1 =
        (attendance_day (DB.mk [Student.mk "s1" ["CS101"] none] [] [] []) 100 "s1" 97).1) :=
  ⟨⟨by decide, by decide, by decide, by decide, by decide, by decide⟩,
    day_backfill (DB.mk [Student.mk "s1" ["CS101"] none] [] [] []) 100 "s1" 97
      (Student.mk "s1" ["CS101"] none) "CS101"
      (by decide) (by decide) (by decide) (by decide) (by decide) (by decide)⟩

/-! ### Helper lemmas about the statistics aggregation -/

lemma aggStep_excluded (t : Totals) (r : AttendanceRecord)
    (h : statusExcluded r.status = true) : aggStep t r = t := by
  simp [aggStep, h]

lemma aggStep_kept (t : Totals) (r : AttendanceRecord)
    (h : statusExcluded r.status = false) :
    aggStep t r =
      { attended := t.attended + r.attended_count,
        held := t.held + r.sessions_held,
        subjAttended := fun c =>
          if c = r.subject_code then t.subjAttended c + r.attended_count else t.subjAttended c,
        subjHeld := fun c =>
          if c = r.subject_code then t.subjHeld c + r.sessions_held else t.subjHeld c,
        subjKeys :=
          if r.subject_code ∈ t.subjKeys then t.subjKeys else t.subjKeys ++ [r.subject_code] } := by
  simp [aggStep, h]

lemma foldl_aggStep_attended :
    ∀ (recs : List AttendanceRecord) (t : Totals),
      (recs.foldl aggStep t).attended =
        t.attended + ((recs.filter (fun r => statusExcluded r.status = false)).map
          (fun r => r.attended_count)).sum := by
  intro recs
  induction recs with
  | nil => intro t; simp
  | cons r rest ih =>
    intro t
    rw [List.foldl_cons]
    cases hx : statusExcluded r.status with
    | true =>
      rw [aggStep_excluded t r hx, ih]
      simp [List.filter_cons, hx]
    | false =>
      rw [aggStep_kept t r hx, ih]
      simp only [List.filter_cons, hx]
      simp only [decide_eq_true_eq]
      simp [List.map_cons, List.sum_cons]
      omega

lemma foldl_aggStep_held :
    ∀ (recs : List AttendanceRecord) (t : Totals),
      (recs.foldl aggStep t).held =
        t.held + ((recs.filter (fun r => statusExcluded r.status = false)).map
          (fun r => r.sessions_held)).sum := by
  intro recs
  induction recs with
  | nil => intro t; simp
  | cons r rest ih =>
    intro t
    rw [List.foldl_cons]
    cases hx : statusExcluded r.status with
    | true =>
      rw [aggStep_excluded t r hx, ih]
      simp [List.filter_cons, hx]
    | false =>
      rw [aggStep_kept t r hx, ih]
      simp only [List.filter_cons, hx]
      simp only [decide_eq_true_eq]
      simp [List.map_cons, List.sum_cons]
      omega

lemma foldl_aggStep_subjAttended (c : String) :
    ∀ (recs : List AttendanceRecord) (t : Totals),
      (recs.foldl aggStep t).subjAttended c =
        t.subjAttended c +
          ((recs.filter (fun r =>
              decide (statusExcluded r.status = false ∧ r.subject_code = c))).map
            (fun r => r.attended_count)).sum := by
  intro recs
  induction recs with
  | nil => intro t; simp
  | cons r rest ih =>
    intro t
    rw [List.foldl_cons]
    cases hx : statusExcluded r.status with
    | true =>
      rw [aggStep_excluded t r hx, ih]
      simp [List.filter_cons, hx]
    | false =>
      rw [aggStep_kept t r hx, ih]
      by_cases hc : c = r.subject_code
      · simp only [List.filter_cons, hx, hc]
        simp [List.map_cons, List.sum_cons]
        omega
      · have : r.subject_code ≠ c := fun he => hc he.symm
        simp only [List.filter_cons]
        simp only [hx, this, decide_eq_true_eq]
        simp [hc]

lemma foldl_aggStep_subjHeld (c : String) :
    ∀ (recs : List AttendanceRecord) (t : Totals),
      (recs.foldl aggStep t).subjHeld c =
        t.subjHeld c +
          ((recs.filter (fun r =>
              decide (statusExcluded r.status = false ∧ r.subject_code = c))).map
            (fun r => r.sessions_held)).sum := by
  intro recs
  induction recs with
  | nil => intro t; simp
  | cons r rest ih =>
    intro t
    rw [List.foldl_cons]
    cases hx : statusExcluded r.status with
    | true =>
      rw [aggStep_excluded t r hx, ih]
      simp [List.filter_cons, hx]
    | false =>
      rw [aggStep_kept t r hx, ih]
      by_cases hc : c = r.subject_code
      · simp only [List.filter_cons, hx, hc]
        simp [List.map_cons, List.sum_cons]
        omega
      · have : r.subject_code ≠ c := fun he => hc he.symm
        simp only [List.filter_cons]
        simp only [hx, this, decide_eq_true_eq]
        simp [hc]

/-! ### Field equations of `attendance_stats` -/

lemma stats_attended_def (db : DB) (today : Ymd) (sid : String) (period : Period) :
    (attendance_stats db today sid period).attended =
      (aggregate (fetchedRecs db today sid period)).attended := rfl

lemma stats_held_def (db : DB) (today : Ymd) (sid : String) (period : Period) :
    (attendance_stats db today sid period).held =
      (aggregate (fetchedRecs db today sid period)).held := rfl

lemma stats_subjects_def (db : DB) (today : Ymd) (sid : String) (period : Period) :
    (attendance_stats db today sid period).subjects =
      (aggregate (fetchedRecs db today sid period)).subjKeys.map (fun c =>
        { subject_code := c,
          attended := (aggregate (fetchedRecs db today sid period)).subjAttended c,
          held := (aggregate (fetchedRecs db today sid period)).subjHeld c,
          percentage := round2 (rawPct
            ((aggregate (fetchedRecs db today sid period)).subjAttended c)
            ((aggregate (fetchedRecs db today sid period)).subjHeld c)) }) := rfl

lemma stats_percentage_def (db : DB) (today : Ymd) (sid : String) (period : Period) :
    (attendance_stats db today sid period).percentage =
      round2 (rawPct (aggregate (fetchedRecs db today sid period)).attended
        (aggregate (fetchedRecs db today sid period)).held) := rfl

lemma stats_threshold_def (db : DB) (today : Ymd) (sid : String) (period : Period) :
    (attendance_stats db today sid period).threshold =
      (match find_student db sid with
       | some s => s.min_threshold.getD (67 / 100) * 100
       | none => 67) := rfl

lemma stats_alert_def (db : DB) (today : Ymd) (sid : String) (period : Period) :
    (attendance_stats db today sid period).alert =
      decide (rawPct (aggregate (fetchedRecs db today sid period)).attended
          (aggregate (fetchedRecs db today sid period)).held <
        (match find_student db sid with
         | some s => s.min_threshold.getD (67 / 100) * 100
         | none => 67)) := rfl

lemma stats_window_from_def (db : DB) (today : Ymd) (sid : String) (period : Period) :
    (attendance_stats db today sid period).window_from =
      resolveStart db.academiccalendar today period := rfl

lemma stats_window_to_def (db : DB) (today : Ymd) (sid : String) (period : Period) :
    (attendance_stats db today sid period).window_to = toOrdinal today := rfl

/-- Evaluation rule for the 2-decimal rounding. -/
lemma round2_eq (x : ℚ) (n : ℤ) (h1 : (n : ℚ) ≤ x * 100 + 1 / 2)
    (h2 : x * 100 + 1 / 2 < n + 1) : round2 x = (n : ℚ) / 100 := by
  unfold round2
  rw [round_eq, Int.floor_eq_iff.mpr ⟨h1, h2⟩]

/-- C4: records with status holiday or teacher_leave contribute nothing to the
per-subject or overall held/attended totals; every other fetched record adds
its sessions_held and attended_count to both. -/
theorem stats_exclusion (db : DB) (today : Ymd) (sid : String) (period : Period) :
    ((attendance_stats db today sid period).attended =
        (((fetchedRecs db today sid period).filter
            (fun r => statusExcluded r.status = false)).map
          (fun r => r.attended_count)).sum ∧
      (attendance_stats db today sid period).held =
        (((fetchedRecs db today sid period).filter
            (fun r => statusExcluded r.status = false)).map
          (fun r => r.sessions_held)).sum) ∧
    (∀ st ∈ (attendance_stats db today sid period).subjects,
      st.attended =
        (((fetchedRecs db today sid period).filter (fun r =>
            decide (statusExcluded r.status = false ∧ r.subject_code = st.subject_code))).map
          (fun r => r.attended_count)).sum ∧
      st.held =
        (((fetchedRecs db today sid period).filter (fun r =>
            decide (statusExcluded r.status = false ∧ r.subject_code = st.subject_code))).map
          (fun r => r.sessions_held)).sum) := by
  refine ⟨⟨?_, ?_⟩, ?_⟩
  · rw [stats_attended_def]
    have := foldl_aggStep_attended (fetchedRecs db today sid period) Totals.init
    simpa [aggregate, Totals.init] using this
  · rw [stats_held_def]
    have := foldl_aggStep_held (fetchedRecs db today sid period) Totals.init
    simpa [aggregate, Totals.init] using this
  · intro st hst
    rw [stats_subjects_def] at hst
    obtain ⟨c, _, hmap⟩ := List.mem_map.mp hst
    subst hmap
    constructor
    · have := foldl_aggStep_subjAttended c (fetchedRecs db today sid period) Totals.init
      simpa [aggregate, Totals.init] using this
    · have := foldl_aggStep_subjHeld c (fetchedRecs db today sid period) Totals.init
      simpa [aggregate, Totals.init] using this

lemma round2_zero : round2 0 = 0 := by
  rw [round2_eq 0 0 (by norm_num) (by norm_num)]
  norm_num

lemma rawPct_two_three : rawPct 2 3 = 200 / 3 := by
  simp only [rawPct, if_pos (by norm_num : (0 : ℤ) < 3)]
  norm_num

/-- Witness for C4: a kept record and an excluded record; the totals come from
the kept one only. -/
theorem stats_exclusion_witness :
    (SubjectStat.mk "CS101" 2 3 (round2 (rawPct 2 3)) ∈
      (attendance_stats (DB.mk [] [] []
        [AttendanceRecord.mk "s1" "CS101" 739901 3 2 Status.mixed,
         AttendanceRecord.mk "s1" "CS101" 739901 5 5 Status.holiday])
        ⟨2026, 10, 12⟩ "s1" Period.weekly).subjects) ∧
    ((SubjectStat.mk "CS101" 2 3 (round2 (rawPct 2 3))).attended =
      (((fetchedRecs (DB.mk [] [] []
          [AttendanceRecord.mk "s1" "CS101" 739901 3 2 Status.mixed,
           AttendanceRecord.mk "s1" "CS101" 739901 5 5 Status.holiday])
          ⟨2026, 10, 12⟩ "s1" Period.weekly).filter (fun r =>
        decide (statusExcluded r.status = false ∧
          r.subject_code = (SubjectStat.mk "CS101" 2 3 (round2 (rawPct 2 3))).subject_code))).map
        (fun r => r.attended_count)).sum ∧
     (SubjectStat.mk "CS101" 2 3 (round2 (rawPct 2 3))).held =
      (((fetchedRecs (DB.mk [] [] []
          [AttendanceRecord.mk "s1" "CS101" 739901 3 2 Status.mixed,
           AttendanceRecord.mk "s1" "CS101" 739901 5 5 Status.holiday])
          ⟨2026, 10, 12⟩ "s1" Period.weekly).filter (fun r =>
        decide (statusExcluded r.status = false ∧
          r.subject_code = (SubjectStat.mk "CS101" 2 3 (round2 (rawPct 2 3))).subject_code))).map
        (fun r => r.sessions_held)).sum) := by
  have hkeys : (aggregate (fetchedRecs (DB.mk [] [] []
      [AttendanceRecord.mk "s1" "CS101" 739901 3 2 Status.mixed,
       AttendanceRecord.mk "s1" "CS101" 739901 5 5 Status.holiday])
      ⟨2026, 10, 12⟩ "s1" Period.weekly)).subjKeys = ["CS101"] := by decide
  have hA : (aggregate (fetchedRecs (DB.mk [] [] []
      [AttendanceRecord.mk "s1" "CS101" 739901 3 2 Status.mixed,
       AttendanceRecord.mk "s1" "CS101" 739901 5 5 Status.holiday])
      ⟨2026, 10, 12⟩ "s1" Period.weekly)).subjAttended "CS101" = 2 := by decide
  have hH : (aggregate (fetchedRecs (DB.mk [] [] []
      [AttendanceRecord.mk "s1" "CS101" 739901 3 2 Status.mixed,
       AttendanceRecord.mk "s1" "CS101" 739901 5 5 Status.holiday])
      ⟨2026, 10, 12⟩ "s1" Period.weekly)).subjHeld "CS101" = 3 := by decide
  have hmem : SubjectStat.mk "CS101" 2 3 (round2 (rawPct 2 3)) ∈
      (attendance_stats (DB.mk [] [] []
        [AttendanceRecord.mk "s1" "CS101" 739901 3 2 Status.mixed,
         AttendanceRecord.mk "s1" "CS101" 739901 5 5 Status.holiday])
        ⟨2026, 10, 12⟩ "s1" Period.weekly).subjects := by
    rw [stats_subjects_def, hkeys]
    simp only [List.map_cons, List.map_nil, hA, hH]
    exact List.mem_singleton.mpr rfl
  exact ⟨hmem,
    (stats_exclusion (DB.mk [] [] []
      [AttendanceRecord.mk "s1" "CS101" 739901 3 2 Status.mixed,
       AttendanceRecord.mk "s1" "CS101" 739901 5 5 Status.holiday])
      ⟨2026, 10, 12⟩ "s1" Period.weekly).2 _ hmem⟩

/-- C5: the stats threshold is the student's min_threshold fraction × 100 with
67.0 as the default when the threshold is missing or the student is not found,
and alert holds iff the (unrounded) overall percentage is strictly below the
threshold; concretely, displayed percentage 66.67 against threshold 67.0
alerts, and percentage 67.0 does not. -/
theorem stats_threshold_alert (db : DB) (today : Ymd) (sid : String) (period : Period) :
    ((attendance_stats db today sid period).threshold =
        (match find_student db sid with
         | some s =>
             (match s.min_threshold with
              | some m => m * 100
              | none => 67)
         | none => 67) ∧
      ((attendance_stats db today sid period).alert = true ↔
        rawPct (attendance_stats db today sid period).attended
            (attendance_stats db today sid period).held <
          (attendance_stats db today sid period).threshold)) ∧
    ((attendance_stats (DB.mk [] [] []
        [AttendanceRecord.mk "s1" "CS101" 739901 3 2 Status.mixed])
        ⟨2026, 10, 12⟩ "s1" Period.weekly).threshold = 67 ∧
      (attendance_stats (DB.mk [] [] []
        [AttendanceRecord.mk "s1" "CS101" 739901 3 2 Status.mixed])
        ⟨2026, 10, 12⟩ "s1" Period.weekly).percentage = 6667 / 100 ∧
      (attendance_stats (DB.mk [] [] []
        [AttendanceRecord.mk "s1" "CS101" 739901 3 2 Status.mixed])
        ⟨2026, 10, 12⟩ "s1" Period.weekly).alert = true) ∧
    ((attendance_stats (DB.mk [] [] []
        [AttendanceRecord.mk "s1" "CS101" 739901 100 67 Status.mixed])
        ⟨2026, 10, 12⟩ "s1" Period.weekly).threshold = 67 ∧
      (attendance_stats (DB.mk [] [] []
        [AttendanceRecord.mk "s1" "CS101" 739901 100 67 Status.mixed])
        ⟨2026, 10, 12⟩ "s1" Period.weekly).percentage = 67 ∧
      (attendance_stats (DB.mk [] [] []
        [AttendanceRecord.mk "s1" "CS101" 739901 100 67 Status.mixed])
        ⟨2026, 10, 12⟩ "s1" Period.weekly).alert = false) := by
  refine ⟨⟨?_, ?_⟩, ⟨?_, ?_, ?_⟩, ⟨?_, ?_, ?_⟩⟩
  · rw [stats_threshold_def]
    cases hfs : find_student db sid with
    | none => rfl
    | some s =>
      cases hmt : s.min_threshold with
      | none => simp [hmt, Option.getD]
      | some m => simp [hmt, Option.getD]
  · rw [stats_alert_def, stats_attended_def, stats_held_def, stats_threshold_def]
    simp [decide_eq_true_eq]
  · rw [stats_threshold_def]
    have : find_student (DB.mk [] [] []
        [AttendanceRecord.mk "s1" "CS101" 739901 3 2 Status.mixed]) "s1" = none := by decide
    rw [this]
  · rw [stats_percentage_def]
    have hA : (aggregate (fetchedRecs (DB.mk [] [] []
        [AttendanceRecord.mk "s1" "CS101" 739901 3 2 Status.mixed])
        ⟨2026, 10, 12⟩ "s1" Period.weekly)).attended = 2 := by decide
    have hH : (aggregate (fetchedRecs (DB.mk [] [] []
        [AttendanceRecord.mk "s1" "CS101" 739901 3 2 Status.mixed])
        ⟨2026, 10, 12⟩ "s1" Period.weekly)).held = 3 := by decide
    rw [hA, hH, rawPct_two_three, round2_eq (200 / 3) 6667 (by norm_num) (by norm_num)]
    norm_num
  · rw [stats_alert_def]
    have hA : (aggregate (fetchedRecs (DB.mk [] [] []
        [AttendanceRecord.mk "s1" "CS101" 739901 3 2 Status.mixed])
        ⟨2026, 10, 12⟩ "s1" Period.weekly)).attended = 2 := by decide
    have hH : (aggregate (fetchedRecs (DB.mk [] [] []
        [AttendanceRecord.mk "s1" "CS101" 739901 3 2 Status.mixed])
        ⟨2026, 10, 12⟩ "s1" Period.weekly)).held = 3 := by decide
    have hfs : find_student (DB.mk [] [] []
        [AttendanceRecord.mk "s1" "CS101" 739901 3 2 Status.mixed]) "s1" = none := by decide
    rw [hA, hH, hfs, rawPct_two_three]
    rw [decide_eq_true_eq]
    norm_num
  · rw [stats_threshold_def]
    have : find_student (DB.mk [] [] []
        [AttendanceRecord.mk "s1" "CS101" 739901 100 67 Status.mixed]) "s1" = none := by decide
    rw [this]
  · rw [stats_percentage_def]
    have hA : (aggregate (fetchedRecs (DB.mk [] [] []
        [AttendanceRecord.mk "s1" "CS101" 739901 100 67 Status.mixed])
        ⟨2026, 10, 12⟩ "s1" Period.weekly)).attended = 67 := by decide
    have hH : (aggregate (fetchedRecs (DB.mk [] [] []
        [AttendanceRecord.mk "s1" "CS101" 739901 100 67 Status.mixed])
        ⟨2026, 10, 12⟩ "s1" Period.weekly)).held = 100 := by decide
    have hraw : rawPct 67 100 = 67 := by
      simp only [rawPct, if_pos (by norm_num : (0 : ℤ) < 100)]
      norm_num
    rw [hA, hH, hraw, round2_eq 67 6700 (by norm_num) (by norm_num)]
    norm_num
  · rw [stats_alert_def]
    have hA : (aggregate (fetchedRecs (DB.mk [] [] []
        [AttendanceRecord.mk "s1" "CS101" 739901 100 67 Status.mixed])
        ⟨2026, 10, 12⟩ "s1" Period.weekly)).attended = 67 := by decide
    have hH : (aggregate (fetchedRecs (DB.mk [] [] []
        [AttendanceRecord.mk "s1" "CS101" 739901 100 67 Status.mixed])
        ⟨2026, 10, 12⟩ "s1" Period.weekly)).held = 100 := by decide
    have hfs : find_student (DB.mk [] [] []
        [AttendanceRecord.mk "s1" "CS101" 739901 100 67 Status.mixed]) "s1" = none := by decide
    have hraw : rawPct 67 100 = 67 := by
      simp only [rawPct, if_pos (by norm_num : (0 : ℤ) < 100)]
      norm_num
    rw [hA, hH, hfs, hraw]
    rw [decide_eq_false_iff_not]
    norm_num

/-- C6: each per-subject percentage is attended/held × 100 rounded to two
decimals when held > 0 and 0.0 otherwise, the overall percentage is computed
the same way from the overall totals, and held=3, attended=2 rounds to 66.67. -/
theorem stats_percentage_rounding (db : DB) (today : Ymd) (sid : String) (period : Period) :
    ((attendance_stats db today sid period).percentage =
        (if 0 < (attendance_stats db today sid period).held then
          round2 (((attendance_stats db today sid period).attended : ℚ) /
            ((attendance_stats db today sid period).held : ℚ) * 100)
         else 0)) ∧
    (∀ st ∈ (attendance_stats db today sid period).subjects,
      st.percentage =
        (if 0 < st.held then
          round2 ((st.attended : ℚ) / (st.held : ℚ) * 100)
         else 0)) ∧
    round2 (rawPct 2 3) = 6667 / 100 := by
  refine ⟨?_, ?_, ?_⟩
  · rw [stats_percentage_def, stats_attended_def, stats_held_def]
    by_cases h : 0 < (aggregate (fetchedRecs db today sid period)).held
    · rw [if_pos h]
      simp [rawPct, h]
    · rw [if_neg h]
      simp only [rawPct, if_neg h]
      exact round2_zero
  · intro st hst
    rw [stats_subjects_def] at hst
    obtain ⟨c, _, hmap⟩ := List.mem_map.mp hst
    subst hmap
    by_cases h : 0 < (aggregate (fetchedRecs db today sid period)).subjHeld c
    · simp only [if_pos h]
      simp [rawPct, h]
    · simp only [if_neg h]
      simp only [rawPct, if_neg h]
      exact round2_zero
  · rw [rawPct_two_three, round2_eq (200 / 3) 6667 (by norm_num) (by norm_num)]
    norm_num

/-- Witness for C6: the per-subject clause at a concrete store with held=3,
attended=2. -/
theorem stats_percentage_rounding_witness :
    (SubjectStat.mk "CS101" 2 3 (round2 (rawPct 2 3)) ∈
      (attendance_stats (DB.mk [] [] []
        [AttendanceRecord.mk "s1" "CS101" 739901 3 2 Status.mixed])
        ⟨2026, 10, 12⟩ "s1" Period.weekly).subjects) ∧
    ((SubjectStat.mk "CS101" 2 3 (round2 (rawPct 2 3))).percentage =
      (if 0 < (SubjectStat.mk "CS101" 2 3 (round2 (rawPct 2 3))).held then
        round2 (((SubjectStat.mk "CS101" 2 3 (round2 (rawPct 2 3))).attended : ℚ) /
          ((SubjectStat.mk "CS101" 2 3 (round2 (rawPct 2 3))).held : ℚ) * 100)
       else 0)) := by
  have hkeys : (aggregate (fetchedRecs (DB.mk [] [] []
      [AttendanceRecord.mk "s1" "CS101" 739901 3 2 Status.mixed])
      ⟨2026, 10, 12⟩ "s1" Period.weekly)).subjKeys = ["CS101"] := by decide
  have hA : (aggregate (fetchedRecs (DB.mk [] [] []
      [AttendanceRecord.mk "s1" "CS101" 739901 3 2 Status.mixed])
      ⟨2026, 10, 12⟩ "s1" Period.weekly)).subjAttended "CS101" = 2 := by decide
  have hH : (aggregate (fetchedRecs (DB.mk [] [] []
      [AttendanceRecord.mk "s1" "CS101" 739901 3 2 Status.mixed])
      ⟨2026, 10, 12⟩ "s1" Period.weekly)).subjHeld "CS101" = 3 := by decide
  have hmem : SubjectStat.mk "CS101" 2 3 (round2 (rawPct 2 3)) ∈
      (attendance_stats (DB.mk [] [] []
        [AttendanceRecord.mk "s1" "CS101" 739901 3 2 Status.mixed])
        ⟨2026, 10, 12⟩ "s1" Period.weekly).subjects := by
    rw [stats_subjects_def, hkeys]
    simp only [List.map_cons, List.map_nil, hA, hH]
    exact List.mem_singleton.mpr rfl
  exact ⟨hmem,
    (stats_percentage_rounding (DB.mk [] [] []
      [AttendanceRecord.mk "s1" "CS101" 739901 3 2 Status.mixed])
      ⟨2026, 10, 12⟩ "s1" Period.weekly).2.1 _ hmem⟩

/-! ### Helper lemmas for window resolution -/

lemma weekly_start_monday (T : ℕ) (hT : 1 ≤ T) : (T - (T - 1) % 7 - 1) % 7 = 0 := by
  have hdm := Nat.div_add_mod (T - 1) 7
  have hlt : (T - 1) % 7 < 7 := Nat.mod_lt _ (by norm_num)
  have he : T - (T - 1) % 7 - 1 = 7 * ((T - 1) / 7) := by omega
  rw [he, Nat.mul_mod_right]

lemma weekly_start_greatest (T o : ℕ) (hT : 1 ≤ T) (ho : 1 ≤ o)
    (hm : (o - 1) % 7 = 0) (hle : o ≤ T) : o ≤ T - (T - 1) % 7 := by
  obtain ⟨k, hk⟩ := Nat.dvd_of_mod_eq_zero hm
  have hdm := Nat.div_add_mod (T - 1) 7
  have hlt : (T - 1) % 7 < 7 := Nat.mod_lt _ (by norm_num)
  omega

lemma semMax_foldl_isSome :
    ∀ (l : List CalEntry) (b : CalEntry), (l.foldl semMax (some b)).isSome := by
  intro l
  induction l with
  | nil => intro b; rfl
  | cons e es ih =>
    intro b
    rw [List.foldl_cons]
    by_cases h : b.date < e.date
    · simpa [semMax, h] using ih e
    · simpa [semMax, h] using ih b

lemma semMax_foldl_some :
    ∀ (l : List CalEntry) (acc : Option CalEntry) (e : CalEntry),
      l.foldl semMax acc = some e →
      ((e ∈ l ∨ acc = some e) ∧ (∀ x ∈ l, x.date ≤ e.date) ∧
        (∀ b, acc = some b → b.date ≤ e.date)) := by
  intro l
  induction l with
  | nil =>
    intro acc e h
    rw [List.foldl_nil] at h
    refine ⟨Or.inr h, by simp, fun b hb => ?_⟩
    rw [h] at hb
    cases hb
    exact le_refl _
  | cons x xs ih =>
    intro acc e h
    rw [List.foldl_cons] at h
    obtain ⟨h1, h2, h3⟩ := ih (semMax acc x) e h
    have hstep : ∃ c, semMax acc x = some c ∧ x.date ≤ c.date ∧
        (∀ b, acc = some b → b.date ≤ c.date) := by
      cases acc with
      | none => exact ⟨x, rfl, le_refl _, fun b hb => by cases hb⟩
      | some b =>
        by_cases hbx : b.date < x.date
        · exact ⟨x, by simp [semMax, hbx], le_refl _,
            fun b' hb' => by cases hb'; exact le_of_lt hbx⟩
        · exact ⟨b, by simp [semMax, hbx], by omega,
            fun b' hb' => by cases hb'; exact le_refl _⟩
    obtain ⟨c, hc, hxc, hbc⟩ := hstep
    have hce : c.date ≤ e.date := h3 c hc
    refine ⟨?_, ?_, ?_⟩
    · rcases h1 with h1 | h1
      · exact Or.inl (List.mem_cons_of_mem _ h1)
      · have hce2 : c = e := Option.some.inj (hc.symm.trans h1)
        cases acc with
        | none =>
          have hx : x = c := Option.some.inj hc
          refine Or.inl ?_
          rw [← hce2, ← hx]
          exact List.mem_cons_self _ _
        | some b =>
          by_cases hbx : b.date < x.date
          · have hx : x = c := Option.some.inj (by simpa [semMax, hbx] using hc)
            refine Or.inl ?_
            rw [← hce2, ← hx]
            exact List.mem_cons_self _ _
          · have hb : b = c := Option.some.inj (by simpa [semMax, hbx] using hc)
            refine Or.inr ?_
            rw [← hce2, ← hb]
    · intro y hy
      rcases List.mem_cons.mp hy with rfl | hy'
      · exact le_trans hxc hce
      · exact h2 y hy'
    · intro b hb
      exact le_trans (hbc b hb) hce

lemma findSemStart_none (cal : List CalEntry) (h : findSemStart cal = none) :
    ∀ e ∈ cal, e.type ≠ EventType.semester_start := by
  intro e he ht
  have hmem : e ∈ cal.filter (fun x => decide (x.type = EventType.semester_start)) :=
    List.mem_filter.mpr ⟨he, by simp [ht]⟩
  unfold findSemStart at h
  cases hf : cal.filter (fun x => decide (x.type = EventType.semester_start)) with
  | nil => rw [hf] at hmem; exact absurd hmem (List.not_mem_nil e)
  | cons a as =>
    rw [hf, List.foldl_cons] at h
    have hsome := semMax_foldl_isSome as a
    rw [show semMax none a = some a from rfl] at h
    rw [h] at hsome
    exact absurd hsome (by simp)

lemma findSemStart_some (cal : List CalEntry) (e : CalEntry)
    (h : findSemStart cal = some e) :
    e ∈ cal ∧ e.type = EventType.semester_start ∧
      ∀ x ∈ cal, x.type = EventType.semester_start → x.date ≤ e.date := by
  unfold findSemStart at h
  obtain ⟨h1, h2, _⟩ := semMax_foldl_some _ none e h
  rcases h1 with h1 | h1
  · have hm := List.mem_filter.mp h1
    refine ⟨hm.1, by simpa using hm.2, ?_⟩
    intro x hx htx
    exact h2 x (List.mem_filter.mpr ⟨hx, by simp [htx]⟩)
  · simp at h1

/-- C7: the stats window always ends at today; the weekly window starts at the
most recent Monday on/before today, the monthly window at the first day of the
current month, and the semester window at the maximum-date semester_start
calendar entry, falling back to the first of the month when none exists. -/
theorem stats_window (db : DB) (today : Ymd) (sid : String) (hday : 1 ≤ today.day) :
    (∀ period, (attendance_stats db today sid period).window_to = toOrdinal today) ∧
    (∀ period, (attendance_stats db today sid period).window_from =
      resolveStart db.academiccalendar today period) ∧
    ((resolveStart db.academiccalendar today Period.weekly - 1) % 7 = 0 ∧
      resolveStart db.academiccalendar today Period.weekly ≤ toOrdinal today ∧
      (∀ o : ℕ, 1 ≤ o → (o - 1) % 7 = 0 → o ≤ toOrdinal today →
        o ≤ resolveStart db.academiccalendar today Period.weekly)) ∧
    (resolveStart db.academiccalendar today Period.monthly =
        toOrdinal ⟨today.year, today.month, 1⟩ ∧
      resolveStart db.academiccalendar today Period.monthly ≤ toOrdinal today) ∧
    ((∃ e ∈ db.academiccalendar, e.type = EventType.semester_start ∧
        resolveStart db.academiccalendar today Period.semester = e.date ∧
        ∀ x ∈ db.academiccalendar, x.type = EventType.semester_start → x.date ≤ e.date) ∨
      ((∀ e ∈ db.academiccalendar, e.type ≠ EventType.semester_start) ∧
        resolveStart db.academiccalendar today Period.semester =
          resolveStart db.academiccalendar today Period.monthly)) := by
  have hT : 1 ≤ toOrdinal today := by
    unfold toOrdinal
    omega
  have hres : resolveStart db.academiccalendar today Period.weekly =
      toOrdinal today - (toOrdinal today - 1) % 7 := rfl
  refine ⟨fun period => stats_window_to_def db today sid period,
    fun period => stats_window_from_def db today sid period, ⟨?_, ?_, ?_⟩, ⟨rfl, ?_⟩, ?_⟩
  · rw [hres]
    exact weekly_start_monday (toOrdinal today) hT
  · rw [hres]
    exact Nat.sub_le _ _
  · intro o ho hm hle
    rw [hres]
    exact weekly_start_greatest (toOrdinal today) o hT ho hm hle
  · show toOrdinal { today with day := 1 } ≤ toOrdinal today
    unfold toOrdinal
    simp only
    omega
  · cases hsem : findSemStart db.academiccalendar with
    | none =>
      refine Or.inr ⟨findSemStart_none _ hsem, ?_⟩
      show (match findSemStart db.academiccalendar with
        | some e => e.date
        | none => toOrdinal { today with day := 1 }) = toOrdinal { today with day := 1 }
      rw [hsem]
    | some e =>
      obtain ⟨hmem, htype, hmax⟩ := findSemStart_some _ e hsem
      refine Or.inl ⟨e, hmem, htype, ?_, hmax⟩
      show (match findSemStart db.academiccalendar with
        | some e => e.date
        | none => toOrdinal { today with day := 1 }) = e.date
      rw [hsem]

/-- Witness for C7: the window facts at today = 2026-10-12 (a Monday) with a
single semester_start entry. -/
theorem stats_window_witness :
    (1 ≤ (Ymd.mk 2026 10 12).day) ∧
    ((∀ period, (attendance_stats (DB.mk [] [CalEntry.mk "sem" 739800 EventType.semester_start]
        [] []) (Ymd.mk 2026 10 12) "s1" period).window_to = toOrdinal (Ymd.mk 2026 10 12)) ∧
    (∀ period, (attendance_stats (DB.mk [] [CalEntry.mk "sem" 739800 EventType.semester_start]
        [] []) (Ymd.mk 2026 10 12) "s1" period).window_from =
      resolveStart [CalEntry.mk "sem" 739800 EventType.semester_start] (Ymd.mk 2026 10 12) period) ∧
    ((resolveStart [CalEntry.mk "sem" 739800 EventType.semester_start] (Ymd.mk 2026 10 12)
        Period.weekly - 1) % 7 = 0 ∧
      resolveStart [CalEntry.mk "sem" 739800 EventType.semester_start] (Ymd.mk 2026 10 12)
        Period.weekly ≤ toOrdinal (Ymd.mk 2026 10 12) ∧
      (∀ o : ℕ, 1 ≤ o → (o - 1) % 7 = 0 → o ≤ toOrdinal (Ymd.mk 2026 10 12) →
        o ≤ resolveStart [CalEntry.mk "sem" 739800 EventType.semester_start]
          (Ymd.mk 2026 10 12) Period.weekly)) ∧
    (resolveStart [CalEntry.mk "sem" 739800 EventType.semester_start] (Ymd.mk 2026 10 12)
        Period.monthly = toOrdinal ⟨2026, 10, 1⟩ ∧
      resolveStart [CalEntry.mk "sem" 739800 EventType.semester_start] (Ymd.mk 2026 10 12)
        Period.monthly ≤ toOrdinal (Ymd.mk 2026 10 12)) ∧
    ((∃ e ∈ [CalEntry.mk "sem" 739800 EventType.semester_start],
        e.type = EventType.semester_start ∧
        resolveStart [CalEntry.mk "sem" 739800 EventType.semester_start] (Ymd.mk 2026 10 12)
          Period.semester = e.date ∧
        ∀ x ∈ [CalEntry.mk "sem" 739800 EventType.semester_start],
          x.type = EventType.semester_start → x.date ≤ e.date) ∨
      ((∀ e ∈ [CalEntry.mk "sem" 739800 EventType.semester_start],
          e.type ≠ EventType.semester_start) ∧
        resolveStart [CalEntry.mk "sem" 739800 EventType.semester_start] (Ymd.mk 2026 10 12)
          Period.semester =
          resolveStart [CalEntry.mk "sem" 739800 EventType.semester_start] (Ymd.mk 2026 10 12)
            Period.monthly))) :=
  ⟨by decide,
    stats_window (DB.mk [] [CalEntry.mk "sem" 739800 EventType.semester_start] [] [])
      (Ymd.mk 2026 10 12) "s1" (by decide)⟩

/-! ### Helper lemmas for suggestions -/

lemma lookup_suggestionsFor (db : DB) (d : ℕ) :
    ∀ (subs : List String) (c : String),
      (suggestionsFor db d subs).lookup c =
        if c ∈ subs then suggestionFor db d c else none := by
  intro subs
  induction subs with
  | nil => intro c; simp [suggestionsFor]
  | cons s0 ss ih =>
    intro c
    show (List.filterMap _ (s0 :: ss)).lookup c = _
    rw [List.filterMap_cons]
    cases hs : suggestionFor db d s0 with
    | none =>
      simp only [Option.map_none']
      by_cases hc : c = s0
      · subst hc
        rw [show (List.filterMap
            (fun code => (suggestionFor db d code).map (fun v => (code, v))) ss) =
          suggestionsFor db d ss from rfl, ih c]
        simp [hs]
      · rw [show (List.filterMap
            (fun code => (suggestionFor db d code).map (fun v => (code, v))) ss) =
          suggestionsFor db d ss from rfl, ih c]
        simp [List.mem_cons, hc]
    | some v =>
      simp only [Option.map_some']
      by_cases hc : c = s0
      · subst hc
        rw [List.lookup]
        simp [hs]
      · rw [List.lookup]
        have hbeq : (c == s0) = false := by
          simp [hc]
        rw [hbeq]
        rw [show (List.filterMap
            (fun code => (suggestionFor db d code).map (fun v => (code, v))) ss) =
          suggestionsFor db d ss from rfl, ih c]
        simp [List.mem_cons, hc]

/-- C8 (amended): the suggestions mapping gives "holiday" to every enrolled
subject when the date is a holiday, else "teacher_leave" to each enrolled
subject on teacher leave that date, and has no entry otherwise — existing
records for the day are not consulted. -/
theorem day_suggestions (db : DB) (today : ℕ) (sid : String) (d : ℕ) (c : String) :
    ((attendance_day db today sid d).2.suggestions.lookup c) =
      (if c ∈ ((find_student db sid).map Student.subjects).getD [] then
        (if is_holiday db d = true then some "holiday"
         else if is_teacher_leave db c d = true then some "teacher_leave"
         else none)
       else none) := by
  have hsugg : (attendance_day db today sid d).2.suggestions =
      suggestionsFor db d (((find_student db sid).map Student.subjects).getD []) := rfl
  rw [hsugg, lookup_suggestionsFor db d _ c]
  by_cases hc : c ∈ ((find_student db sid).map Student.subjects).getD []
  · rw [if_pos hc, if_pos hc]
    unfold suggestionFor
    rfl
  · rw [if_neg hc, if_neg hc]

/-- Counterexample for C8: as stated, the claim requires suggestion entries
only for subjects whose day is not already settled by an existing record; the
code suggests for every enrolled subject, even one that already has a record
for that day. -/
theorem day_suggestions_cex :
    ¬ (∀ (db : DB) (today : ℕ) (sid : String) (d : ℕ) (pr : String × String),
        pr ∈ (attendance_day db today sid d).2.suggestions →
        db.attendancerecord.find? (matchesKey sid pr.1 d) = none) := by
  intro h
  have := h (DB.mk [Student.mk "s1" ["CS101"] none]
      [CalEntry.mk "x" 10 EventType.holiday] []
      [AttendanceRecord.mk "s1" "CS101" 10 1 0 Status.mixed]) 20 "s1" 10
      ("CS101", "holiday") (by decide)
  exact absurd this (by decide)

/-! ### Helper lemmas for the missing enrollment filter -/

lemma SR_fields_ext (a b : StatsResult)
    (h1 : a.window_from = b.window_from) (h2 : a.window_to = b.window_to)
    (h3 : a.attended = b.attended) (h4 : a.held = b.held)
    (h5 : a.percentage = b.percentage) (h6 : a.threshold = b.threshold)
    (h7 : a.alert = b.alert) (h8 : a.subjects = b.subjects) : a = b := by
  cases a; cases b
  simp only at h1 h2 h3 h4 h5 h6 h7 h8
  rw [h1, h2, h3, h4, h5, h6, h7, h8]

lemma find_student_map_subjects (db : DB) (sid : String) (g : Student → List String) :
    find_student (mapSubjects g db) sid =
      (find_student db sid).map (fun s => { s with subjects := g s }) := by
  unfold find_student mapSubjects
  rw [List.find?_map]
  rfl

/-- C9: `attendance_stats` has no enrollment filter — replacing every
student's enrolled subject list arbitrarily changes nothing in the stats
output, and a record whose subject the student is not enrolled in still
contributes to the totals. -/
theorem stats_no_enrollment_filter (db : DB) (today : Ymd) (sid : String)
    (period : Period) (g : Student → List String) :
    (attendance_stats (mapSubjects g db) today sid period =
      attendance_stats db today sid period) ∧
    (attendance_stats (DB.mk [Student.mk "s2" [] none] [] []
        [AttendanceRecord.mk "s2" "CS999" 739901 4 3 Status.mixed])
        ⟨2026, 10, 12⟩ "s2" Period.weekly).held = 4 ∧
    (attendance_stats (DB.mk [Student.mk "s2" [] none] [] []
        [AttendanceRecord.mk "s2" "CS999" 739901 4 3 Status.mixed])
        ⟨2026, 10, 12⟩ "s2" Period.weekly).attended = 3 ∧
    (attendance_stats (DB.mk [Student.mk "s2" [] none] [] []
        [AttendanceRecord.mk "s2" "CS999" 739901 4 3 Status.mixed])
        ⟨2026, 10, 12⟩ "s2" Period.weekly).subjects.map SubjectStat.subject_code =
      ["CS999"] := by
  refine ⟨?_, by decide, by decide, ?_⟩
  · have hthr : (attendance_stats (mapSubjects g db) today sid period).threshold =
        (attendance_stats db today sid period).threshold := by
      rw [stats_threshold_def, stats_threshold_def, find_student_map_subjects]
      cases find_student db sid with
      | none => rfl
      | some s => rfl
    have halert : (attendance_stats (mapSubjects g db) today sid period).alert =
        (attendance_stats db today sid period).alert := by
      rw [stats_alert_def, stats_alert_def, find_student_map_subjects]
      cases find_student db sid with
      | none => rfl
      | some s => rfl
    exact SR_fields_ext _ _ rfl rfl rfl rfl rfl hthr halert rfl
  · have hkeys : (aggregate (fetchedRecs (DB.mk [Student.mk "s2" [] none] [] []
        [AttendanceRecord.mk "s2" "CS999" 739901 4 3 Status.mixed])
        ⟨2026, 10, 12⟩ "s2" Period.weekly)).subjKeys = ["CS999"] := by decide
    rw [stats_subjects_def, hkeys]
    simp

end Attendance
